import Mathlib

/-!
Verification of the daily-fits analytics scripts
(`monthly_stats.py`, `weekly_stats.py`, `export_csv.py`).

The database-facing functions are modelled as pure functions over the row
sequences the SQL queries return: `calculate_monthly_stats` /
`calculate_weekly_stats` take the fetched score rows (ordered as the query
orders them), the `players`-table name map, and (monthly only) the
`COUNT(DISTINCT stat_date)` result, which comes from a separate query.
Floating-point arithmetic in the scripts is modelled over `Rat`.
-/

/- ### Calendar arithmetic

`isleap`/`monthrange` follow Python's `calendar` module; `daysFromCivil` /
`civilFromDays` are the standard proleptic-Gregorian conversions between a
date and its day count relative to 1970-01-01 (as used by `datetime.date`
ordinals, shifted by a constant). -/

def isleap (year : Int) : Bool :=
  year % 4 == 0 && (year % 100 != 0 || year % 400 == 0)

def mdays : List Int := [0, 31, 28, 31, 30, 31, 30, 31, 31, 30, 31, 30, 31]

/-- Python `calendar.monthrange(year, month)[1]`: the number of days in the
month, raising `IllegalMonthError` for a month outside 1..12.  Only the day
count (the second tuple component) is used by the scripts, so only it is
modelled. -/
def monthrange (year month : Int) : Except String Int :=
  if month < 1 || 12 < month then
    Except.error "IllegalMonthError"
  else
    Except.ok (mdays.getD month.toNat 0 + (if month == 2 && isleap year then 1 else 0))

/-- Days from 1970-01-01 to the civil date (y, m, d), proleptic Gregorian. -/
def daysFromCivil (y m d : Int) : Int :=
  let y' := y - (if m <= 2 then 1 else 0)
  let era := Int.fdiv y' 400
  let yoe := y' - era * 400
  let mp := if m <= 2 then m + 9 else m - 3
  let doy := Int.fdiv (153 * mp + 2) 5 + d - 1
  let doe := yoe * 365 + Int.fdiv yoe 4 - Int.fdiv yoe 100 + doy
  era * 146097 + doe - 719468

/-- Inverse of `daysFromCivil`: the civil date (y, m, d) of day `z`,
counted from 1970-01-01. -/
def civilFromDays (z : Int) : Int × Int × Int :=
  let z' := z + 719468
  let era := Int.fdiv z' 146097
  let doe := z' - era * 146097
  let yoe := Int.fdiv (doe - Int.fdiv doe 1460 + Int.fdiv doe 36524 - Int.fdiv doe 146096) 365
  let y := yoe + era * 400
  let doy := doe - (365 * yoe + Int.fdiv yoe 4 - Int.fdiv yoe 100)
  let mp := Int.fdiv (5 * doy + 2) 153
  let d := doy - Int.fdiv (153 * mp + 2) 5 + 1
  let m := if mp < 10 then mp + 3 else mp - 9
  (y + (if m <= 2 then 1 else 0), m, d)

/-- Python `date.weekday()` (Monday = 0) of day `z` from 1970-01-01,
which was a Thursday. -/
def weekdayZ (z : Int) : Int := (z + 3) % 7

def padLeftZeros (width : Nat) (s : String) : String :=
  if s.length < width then String.mk (List.replicate (width - s.length) '0') ++ s else s

/-- Python `f'\x7bn:02d\x7d'`. -/
def pad2 (n : Int) : String :=
  if 0 ≤ n then padLeftZeros 2 (toString n) else toString n

/-- Python `date.strftime('%Y-%m-%d')` of day `z` (the year is zero-padded
to four digits). -/
def strftimeYmd (z : Int) : String :=
  let c := civilFromDays z
  (if 0 ≤ c.1 then padLeftZeros 4 (toString c.1) else toString c.1)
    ++ "-" ++ pad2 c.2.1 ++ "-" ++ pad2 c.2.2

/-- `monthly_stats.get_month_date_range`: first and last day of the month as
`YYYY-MM-DD` strings (the year is interpolated unpadded, exactly as the
f-string does); `calendar.monthrange` raises for a month outside 1..12. -/
def get_month_date_range (year month : Int) : Except String (String × String) :=
  match monthrange year month with
  | Except.error e => Except.error e
  | Except.ok last_day_num =>
    Except.ok (toString year ++ "-" ++ pad2 month ++ "-01",
               toString year ++ "-" ++ pad2 month ++ "-" ++ pad2 last_day_num)

/-- `weekly_stats.get_week_date_range`, via
`datetime.strptime(f'\x7byear\x7d-W\x7bweek:02d\x7d-1', '%Y-W%W-%w')`.
The `%Y` pattern requires exactly four digits and `%W` accepts only 0..53
(anything else fails the regex with `ValueError`); for an accepted week the
parsed date is the Monday of the `%W`-numbered week: week 1 starts on the
first Monday of the year, days before it are week 0 (`julian = 1 - wd(Jan1)`
for week 0, else `1 + (7 - wd(Jan1)) % 7 + 7*(week-1)`), and
`date.fromordinal` raises beyond year 9999. -/
def get_week_date_range (year week : Int) : Except String (String × String) :=
  if year < 1000 || 9999 < year || week < 0 || 53 < week then
    Except.error "ValueError: time data does not match format"
  else
    let jan1 := daysFromCivil year 1 1
    let firstWeekday := weekdayZ jan1
    let julian := if week == 0 then 1 - firstWeekday
                  else 1 + (7 - firstWeekday) % 7 + 7 * (week - 1)
    let first_day := jan1 + julian - 1
    if daysFromCivil 9999 12 31 < first_day + 6 then
      Except.error "ValueError: year is out of range"
    else
      Except.ok (strftimeYmd first_day, strftimeYmd (first_day + 6))

/-- Modelled from the spec: the Monday of ISO-8601 week (year, week), as a
day count from 1970-01-01.  ISO week 1 is the week containing January 4, so
its Monday is January 4 pushed back to the preceding (or same) Monday. -/
def isoWeekMonday (year week : Int) : Int :=
  let jan4 := daysFromCivil year 1 4
  jan4 - weekdayZ jan4 + 7 * (week - 1)

/-- Modelled from the spec: the last calendar day of (year, month) by the
Gregorian month-length rules (February has 29 days in leap years, else 28;
April, June, September, November have 30; the rest have 31). -/
def lastDayOfMonthSpec (year month : Int) : Int :=
  if month == 2 then (if isleap year then 29 else 28)
  else if month == 4 || month == 6 || month == 9 || month == 11 then 30
  else 31

/- ### Insertion-ordered dictionaries

Python dicts (and `defaultdict`s) iterate in key-insertion order; they are
modelled as association lists where updating an existing key keeps its
position and a new key is appended at the end. -/

def updAssoc (k : String) (f : β → β) (d : β) : List (String × β) → List (String × β)
  | [] => [(k, f d)]
  | kv :: rest =>
    if kv.1 = k then (kv.1, f kv.2) :: rest else kv :: updAssoc k f d rest

def lookupOpt (m : List (String × β)) (k : String) : Option β :=
  match m with
  | [] => none
  | kv :: rest => if kv.1 = k then some kv.2 else lookupOpt rest k

def countD (m : List (String × Nat)) (k : String) : Nat :=
  (lookupOpt m k).getD 0

def keysOf (m : List (String × β)) : List String := m.map Prod.fst

/- ### Score rows and numeric helpers -/

/-- One row of the `daily_scores ⋈ players` query: `(stat_date, position,
score, playfab_id, display_name)`. -/
structure Row where
  stat_date : String
  position : Int
  score : Int
  playfab_id : String
  display_name : String
deriving DecidableEq

/-- Python float division `sum(l) / len(l)` (callers only use it on
non-empty lists). -/
def meanQ (l : List Int) : Rat := (l.sum : Rat) / (l.length : Rat)

/-- Python `int(q)` on a float: truncation toward zero. -/
def pyInt (q : Rat) : Int := Int.tdiv q.num (q.den : Int)

def listMax : List Int → Int
  | [] => 0
  | [a] => a
  | a :: b :: rest => max a (listMax (b :: rest))

def listMin : List Int → Int
  | [] => 0
  | [a] => a
  | a :: b :: rest => min a (listMin (b :: rest))

/-- `player_names.get(pid, 'Unknown')`. -/
def nameOf (names : List (String × String)) (pid : String) : String :=
  (lookupOpt names pid).getD "Unknown"

/- ### Monthly aggregation (`calculate_monthly_stats`) -/

structure MAgg where
  first_place_counts : List (String × Nat)
  podium_counts : List (String × Nat)
  top_10_counts : List (String × Nat)
  participation_counts : List (String × Nat)
  total_scores : List (String × List Int)
  daily_participants : List (String × List String)
deriving DecidableEq

def MAgg.init : MAgg := ⟨[], [], [], [], [], []⟩

/-- One iteration of the scores loop in `calculate_monthly_stats`. -/
def mStep (st : MAgg) (r : Row) : MAgg :=
  let st := { st with
    participation_counts := updAssoc r.playfab_id (· + 1) 0 st.participation_counts,
    daily_participants := updAssoc r.stat_date
      (fun ps => if r.playfab_id ∈ ps then ps else ps ++ [r.playfab_id]) []
      st.daily_participants,
    total_scores := updAssoc r.playfab_id (· ++ [r.score]) [] st.total_scores }
  let st := if r.position = 0 then
    { st with first_place_counts := updAssoc r.playfab_id (· + 1) 0 st.first_place_counts }
    else st
  let st := if r.position ≤ 2 then
    { st with podium_counts := updAssoc r.playfab_id (· + 1) 0 st.podium_counts }
    else st
  if r.position ≤ 9 then
    { st with top_10_counts := updAssoc r.playfab_id (· + 1) 0 st.top_10_counts }
    else st

def mAgg (rows : List Row) : MAgg := rows.foldl mStep MAgg.init

/-- `sorted(d.items(), key=lambda x: x[1], reverse=True)`: stable descending
sort by the counter. -/
def natDescLE (a b : String × Nat) : Bool := decide (b.2 ≤ a.2)

structure ChampEntry where
  playfab_id : String
  display_name : String
  first_place_count : Nat
  win_percentage : Rat
deriving DecidableEq

structure PodiumEntry where
  playfab_id : String
  display_name : String
  podium_count : Nat
  podium_percentage : Rat
deriving DecidableEq

structure Top10Entry where
  playfab_id : String
  display_name : String
  top_10_count : Nat
deriving DecidableEq

structure MConsistEntry where
  playfab_id : String
  display_name : String
  days_played : Nat
  average_score : Int
  max_score : Int
  min_score : Int
  consistency_rating : Rat
deriving DecidableEq

structure ParticipationStats where
  total_unique_players : Nat
  total_days_tracked : Nat
  avg_daily_participants : Rat
deriving DecidableEq

structure ScoreStatistics where
  total_scores_recorded : Nat
  average_score : Int
  highest_score : Int
  lowest_score : Int
deriving DecidableEq

structure MonthlyReport where
  start_date : String
  end_date : String
  monthly_champion : Option ChampEntry
  top_champions : List ChampEntry
  top_podium_finishes : List PodiumEntry
  top_10_finishes : List Top10Entry
  most_consistent : List MConsistEntry
  participation_stats : ParticipationStats
  score_statistics : Option ScoreStatistics
deriving DecidableEq

def mkChampEntry (names : List (String × String)) (td : Nat) (p : String × Nat) : ChampEntry :=
  { playfab_id := p.1
    display_name := nameOf names p.1
    first_place_count := p.2
    win_percentage := if 0 < td then (p.2 : Rat) / (td : Rat) * 100 else 0 }

def mkPodiumEntry (names : List (String × String)) (td : Nat) (p : String × Nat) : PodiumEntry :=
  { playfab_id := p.1
    display_name := nameOf names p.1
    podium_count := p.2
    podium_percentage := if 0 < td then (p.2 : Rat) / (td : Rat) * 100 else 0 }

def mkTop10Entry (names : List (String × String)) (p : String × Nat) : Top10Entry :=
  { playfab_id := p.1, display_name := nameOf names p.1, top_10_count := p.2 }

/-- The `consistent` list of `calculate_monthly_stats` before sorting:
players with `days_played >= 5` that have recorded scores. -/
def mConsistPool (names : List (String × String)) (st : MAgg) : List MConsistEntry :=
  st.participation_counts.filterMap fun p =>
    if 5 ≤ p.2 then
      match lookupOpt st.total_scores p.1 with
      | some scores_list =>
        some { playfab_id := p.1
               display_name := nameOf names p.1
               days_played := p.2
               average_score := pyInt (meanQ scores_list)
               max_score := listMax scores_list
               min_score := listMin scores_list
               consistency_rating := (p.2 : Rat) * meanQ scores_list }
      | none => none
    else none

def mConsistLE (a b : MConsistEntry) : Bool :=
  decide (b.consistency_rating ≤ a.consistency_rating)

def mScoreStats (st : MAgg) : Option ScoreStatistics :=
  match st.total_scores with
  | [] => none
  | _ =>
    let all_scores := (st.total_scores.map Prod.snd).flatten
    some { total_scores_recorded := all_scores.length
           average_score := pyInt (meanQ all_scores)
           highest_score := listMax all_scores
           lowest_score := listMin all_scores }

/-- Pure core of `calculate_monthly_stats`: `rows` is the result of the
scores query, `names` the `players` table, `totalDays` the
`COUNT(DISTINCT stat_date)` query result. -/
def calculate_monthly_stats (rows : List Row) (names : List (String × String))
    (totalDays : Nat) (start_date end_date : String) : MonthlyReport :=
  let st := mAgg rows
  let top_champions := st.first_place_counts.mergeSort natDescLE
  let top_podium := st.podium_counts.mergeSort natDescLE
  let top_10 := st.top_10_counts.mergeSort natDescLE
  { start_date := start_date
    end_date := end_date
    monthly_champion := top_champions.head?.map (mkChampEntry names totalDays)
    top_champions := (top_champions.take 10).map (mkChampEntry names totalDays)
    top_podium_finishes := (top_podium.take 10).map (mkPodiumEntry names totalDays)
    top_10_finishes := (top_10.take 20).map (mkTop10Entry names)
    most_consistent := ((mConsistPool names st).mergeSort mConsistLE).take 15
    participation_stats :=
      { total_unique_players := st.participation_counts.length
        total_days_tracked := totalDays
        avg_daily_participants :=
          ((st.daily_participants.map (fun p => p.2.length)).sum : Rat)
            / ((max st.daily_participants.length 1 : Nat) : Rat) }
    score_statistics := mScoreStats st }

/- ### Weekly aggregation (`calculate_weekly_stats`) -/

structure DailyWinner where
  playfab_id : String
  display_name : String
  score : Int
deriving DecidableEq

structure WAgg where
  first_place_counts : List (String × Nat)
  podium_counts : List (String × Nat)
  participation_counts : List (String × Nat)
  total_scores : List (String × List Int)
  daily_winners : List (String × DailyWinner)
deriving DecidableEq

def WAgg.init : WAgg := ⟨[], [], [], [], []⟩

/-- One iteration of the scores loop in `calculate_weekly_stats`.  The
daily winner uses the row's own `display_name` (from the SQL join) and a
later position-0 row for the same date overwrites the stored winner. -/
def wStep (st : WAgg) (r : Row) : WAgg :=
  let st := { st with
    participation_counts := updAssoc r.playfab_id (· + 1) 0 st.participation_counts,
    total_scores := updAssoc r.playfab_id (· ++ [r.score]) [] st.total_scores }
  let st := if r.position = 0 then
    { st with
      first_place_counts := updAssoc r.playfab_id (· + 1) 0 st.first_place_counts,
      daily_winners := updAssoc r.stat_date
        (fun _ => ⟨r.playfab_id, r.display_name, r.score⟩) ⟨"", "", 0⟩
        st.daily_winners }
    else st
  if r.position ≤ 2 then
    { st with podium_counts := updAssoc r.playfab_id (· + 1) 0 st.podium_counts }
    else st

def wAgg (rows : List Row) : WAgg := rows.foldl wStep WAgg.init

structure WChampEntry where
  playfab_id : String
  display_name : String
  first_place_count : Nat
deriving DecidableEq

structure WCountEntry where
  playfab_id : String
  display_name : String
  count : Nat
deriving DecidableEq

structure WConsistEntry where
  playfab_id : String
  display_name : String
  days_played : Nat
  average_score : Int
deriving DecidableEq

structure WeeklyReport where
  start_date : String
  end_date : String
  daily_winners : List (String × DailyWinner)
  weekly_champion : Option WChampEntry
  top_first_places : List WCountEntry
  top_podium_finishes : List WCountEntry
  most_consistent : List WConsistEntry
  total_unique_players : Nat
deriving DecidableEq

def mkWCountEntry (names : List (String × String)) (p : String × Nat) : WCountEntry :=
  { playfab_id := p.1, display_name := nameOf names p.1, count := p.2 }

/-- The `consistent` list of `calculate_weekly_stats` before sorting:
players with `days_played >= 3` that have recorded scores. -/
def wConsistPool (names : List (String × String)) (st : WAgg) : List WConsistEntry :=
  st.participation_counts.filterMap fun p =>
    if 3 ≤ p.2 then
      match lookupOpt st.total_scores p.1 with
      | some scores_list =>
        some { playfab_id := p.1
               display_name := nameOf names p.1
               days_played := p.2
               average_score := pyInt (meanQ scores_list) }
      | none => none
    else none

/-- `consistent.sort(key=lambda x: (x['days_played'], x['average_score']),
reverse=True)`: stable descending sort by the lexicographic pair. -/
def wConsistLE (a b : WConsistEntry) : Bool :=
  decide (b.days_played < a.days_played ∨
    (b.days_played = a.days_played ∧ b.average_score ≤ a.average_score))

/-- Pure core of `calculate_weekly_stats`: `rows` is the result of the
scores query and `names` the `players` table. -/
def calculate_weekly_stats (rows : List Row) (names : List (String × String))
    (start_date end_date : String) : WeeklyReport :=
  let st := wAgg rows
  let top_first := st.first_place_counts.mergeSort natDescLE
  let top_podium := st.podium_counts.mergeSort natDescLE
  { start_date := start_date
    end_date := end_date
    daily_winners := st.daily_winners
    weekly_champion := top_first.head?.map fun p =>
      { playfab_id := p.1, display_name := nameOf names p.1, first_place_count := p.2 }
    top_first_places := (top_first.take 10).map (mkWCountEntry names)
    top_podium_finishes := (top_podium.take 10).map (mkWCountEntry names)
    most_consistent := ((wConsistPool names st).mergeSort wConsistLE).take 10
    total_unique_players := st.participation_counts.length }

/- ### Exporter (`export_csv.write_csv` / `write_json`)

Records are flat ordered key-value maps with stringified values.  The file
side effect is modelled by returning the would-be file content; `write_csv`
on an empty list prints a notice and returns without creating a file, and
`csv.DictWriter` raises `ValueError` if some record has a key missing from
the first record's keys (the field names). -/

inductive CsvResult where
  | emptyMsg : CsvResult
  | written : List String → CsvResult
  | raisedValueError : CsvResult
deriving DecidableEq

def csvNeedsQuote (s : String) : Bool :=
  s.any fun c => c == ',' || c == '"' || c == '\n' || c == '\r'

def csvField (s : String) : String :=
  if csvNeedsQuote s then "\"" ++ s.replace "\"" "\"\"" ++ "\"" else s

def csvLine (fields : List String) : String :=
  String.intercalate "," (fields.map csvField)

/-- `write_csv`, returning the CRLF-terminated lines of the file (without
the terminators). -/
def write_csv (records : List (List (String × String))) : CsvResult :=
  match records with
  | [] => CsvResult.emptyMsg
  | r0 :: _ =>
    let fieldnames := r0.map Prod.fst
    if records.all (fun r => r.all fun kv => fieldnames.contains kv.1) then
      CsvResult.written
        (csvLine fieldnames ::
          records.map fun r => csvLine (fieldnames.map fun k => (lookupOpt r k).getD ""))
    else
      CsvResult.raisedValueError

def jsonEscape (s : String) : String :=
  (s.replace "\\" "\\\\").replace "\"" "\\\""

def jsonString (s : String) : String := "\"" ++ jsonEscape s ++ "\""

def jsonObj (r : List (String × String)) : String :=
  match r with
  | [] => "\x7b\x7d"
  | _ =>
    "\x7b\n"
      ++ String.intercalate ",\n"
          (r.map fun kv => "    " ++ jsonString kv.1 ++ ": " ++ jsonString kv.2)
      ++ "\n  \x7d"

/-- `write_json` with `json.dump(records, f, indent=2)`: the file content;
an empty list serializes to the two characters `[]`. -/
def write_json (records : List (List (String × String))) : String :=
  match records with
  | [] => "[]"
  | _ =>
    "[\n" ++ String.intercalate ",\n" (records.map fun r => "  " ++ jsonObj r) ++ "\n]"

/- ### Named sorted rankings (the sorted lists the report builders use) -/

def mFirstSorted (rows : List Row) : List (String × Nat) :=
  (mAgg rows).first_place_counts.mergeSort natDescLE

def mPodiumSorted (rows : List Row) : List (String × Nat) :=
  (mAgg rows).podium_counts.mergeSort natDescLE

def mTop10Sorted (rows : List Row) : List (String × Nat) :=
  (mAgg rows).top_10_counts.mergeSort natDescLE

def wFirstSorted (rows : List Row) : List (String × Nat) :=
  (wAgg rows).first_place_counts.mergeSort natDescLE

def wPodiumSorted (rows : List Row) : List (String × Nat) :=
  (wAgg rows).podium_counts.mergeSort natDescLE

def mConsistSorted (names : List (String × String)) (rows : List Row) :
    List MConsistEntry :=
  (mConsistPool names (mAgg rows)).mergeSort mConsistLE

def wConsistSorted (names : List (String × String)) (rows : List Row) :
    List WConsistEntry :=
  (wConsistPool names (wAgg rows)).mergeSort wConsistLE

/- ### Spec-modelled rounding -/

/-- Modelled from the spec: round half to even to an integer, Python's
`round` tie-breaking. -/
def roundHalfEven (q : Rat) : Int :=
  let f := q.floor
  let r := q - (f : Rat)
  if r < 1/2 then f
  else if 1/2 < r then f + 1
  else if f % 2 = 0 then f else f + 1

/-- Modelled from the spec: rounding to 2 decimal places
(`round(x, 2)`). -/
def round2 (q : Rat) : Rat := (roundHalfEven (q * 100) : Rat) / 100

/- ### Concrete example inputs used by witnesses and counterexamples -/

/-- Five days of data: player A finishes first every day with scores
90, 90, 90, 92, 95 (sum 457, mean 91.4). -/
def exampleRows : List Row :=
  [⟨"2024-01-01", 0, 90, "A", "An"⟩,
   ⟨"2024-01-02", 0, 90, "A", "An"⟩,
   ⟨"2024-01-03", 0, 90, "A", "An"⟩,
   ⟨"2024-01-04", 0, 92, "A", "An"⟩,
   ⟨"2024-01-05", 0, 95, "A", "An"⟩]

def exampleCsvRecords : List (List (String × String)) :=
  [[("a", "1"), ("b", "2")], [("a", "3"), ("b", "4")]]

/-- The consistency entry `exampleRows` produces for player A, written
with its fields unevaluated. -/
def examplePoolEntry : MConsistEntry :=
  { playfab_id := "A"
    display_name := nameOf [] "A"
    days_played := 5
    average_score := pyInt (meanQ [90, 90, 90, 92, 95])
    max_score := listMax [90, 90, 90, 92, 95]
    min_score := listMin [90, 90, 90, 92, 95]
    consistency_rating := ((5 : Nat) : Rat) * meanQ [90, 90, 90, 92, 95] }

/- ### Association-list lemmas -/

theorem keysOf_cons (kv : String × β) (l : List (String × β)) :
    keysOf (kv :: l) = kv.1 :: keysOf l := rfl

theorem lookupOpt_updAssoc (k k' : String) (f : β → β) (d : β) :
    ∀ m : List (String × β),
      lookupOpt (updAssoc k f d m) k' =
        if k' = k then some (f ((lookupOpt m k).getD d)) else lookupOpt m k'
  | [] => by
    by_cases h : k' = k
    · subst h; simp [updAssoc, lookupOpt]
    · have h' : ¬ k = k' := fun hh => h hh.symm
      simp [updAssoc, lookupOpt, h, h']
  | kv :: rest => by
    have ih := lookupOpt_updAssoc k k' f d rest
    by_cases h1 : kv.1 = k
    · by_cases h2 : k' = k
      · subst h2
        simp [updAssoc, lookupOpt, h1]
      · have hne : ¬ kv.1 = k' := fun hh => h2 (hh.symm.trans h1)
        have hne' : ¬ k = k' := fun hh => h2 hh.symm
        simp [updAssoc, lookupOpt, h1, h2, hne, hne']
    · by_cases h2 : k' = k
      · subst h2
        simp [updAssoc, lookupOpt, h1, ih]
      · simp [updAssoc, lookupOpt, h1, h2, ih]

theorem countD_updAssoc_one (k k' : String) (m : List (String × Nat)) :
    countD (updAssoc k (· + 1) 0 m) k' = countD m k' + if k' = k then 1 else 0 := by
  by_cases h : k' = k
  · subst h
    simp [countD, lookupOpt_updAssoc]
  · simp [countD, lookupOpt_updAssoc, h]

theorem keysOf_updAssoc (k : String) (f : β → β) (d : β) :
    ∀ m : List (String × β),
      keysOf (updAssoc k f d m) =
        if k ∈ keysOf m then keysOf m else keysOf m ++ [k]
  | [] => by simp [updAssoc, keysOf]
  | kv :: rest => by
    have ih := keysOf_updAssoc k f d rest
    by_cases h1 : kv.1 = k
    · have hmem : k ∈ kv.1 :: keysOf rest := h1 ▸ List.mem_cons_self kv.1 (keysOf rest)
      simp only [updAssoc, if_pos h1, keysOf_cons, if_pos hmem]
    · by_cases h2 : k ∈ keysOf rest
      · have hmem : k ∈ kv.1 :: keysOf rest := List.mem_cons_of_mem kv.1 h2
        simp only [updAssoc, if_neg h1, keysOf_cons, ih, if_pos h2, if_pos hmem]
      · have hmem : k ∉ kv.1 :: keysOf rest := by
          rw [List.mem_cons]
          rintro (hh | hh)
          · exact h1 hh.symm
          · exact h2 hh
        simp only [updAssoc, if_neg h1, keysOf_cons, ih, if_neg h2, if_neg hmem,
          List.cons_append]

theorem nodup_keysOf_updAssoc (k : String) (f : β → β) (d : β)
    (m : List (String × β)) (h : (keysOf m).Nodup) :
    (keysOf (updAssoc k f d m)).Nodup := by
  rw [keysOf_updAssoc]
  by_cases hk : k ∈ keysOf m
  · simpa [hk] using h
  · simp [hk, List.nodup_append, h]

theorem mem_of_lookupOpt_eq_some {m : List (String × β)} {k : String} {v : β} :
    lookupOpt m k = some v → (k, v) ∈ m := by
  induction m with
  | nil => intro h; simp [lookupOpt] at h
  | cons kv rest ih =>
    intro h
    by_cases h1 : kv.1 = k
    · simp only [lookupOpt, if_pos h1] at h
      have hv : kv.2 = v := Option.some.inj h
      subst hv
      subst h1
      exact List.mem_cons_self kv rest
    · simp only [lookupOpt, if_neg h1] at h
      exact List.mem_cons_of_mem kv (ih h)

theorem lookupOpt_eq_some_of_mem {m : List (String × β)} {k : String} {v : β}
    (hnd : (keysOf m).Nodup) (h : (k, v) ∈ m) : lookupOpt m k = some v := by
  induction m with
  | nil => simp at h
  | cons kv rest ih =>
    rw [keysOf_cons, List.nodup_cons] at hnd
    rcases List.mem_cons.1 h with h1 | h1
    · rw [← h1]
      simp [lookupOpt]
    · have hk : ¬ kv.1 = k := by
        intro he
        apply hnd.1
        rw [he]
        exact List.mem_map_of_mem Prod.fst h1
      simp only [lookupOpt, if_neg hk]
      exact ih hnd.2 h1

theorem lookupOpt_eq_none_iff {m : List (String × β)} {k : String} :
    lookupOpt m k = none ↔ k ∉ keysOf m := by
  induction m with
  | nil => simp [lookupOpt, keysOf]
  | cons kv rest ih =>
    rw [keysOf_cons]
    by_cases h1 : kv.1 = k
    · simp [lookupOpt, h1]
    · have h1' : ¬ k = kv.1 := fun hh => h1 hh.symm
      simp [lookupOpt, h1, h1', ih]

theorem lookupOpt_isSome_iff {m : List (String × β)} {k : String} :
    (lookupOpt m k).isSome ↔ k ∈ keysOf m := by
  rcases hh : lookupOpt m k with _ | v
  · simp [lookupOpt_eq_none_iff.1 hh]
  · simp only [Option.isSome_some, true_iff]
    exact List.mem_map_of_mem Prod.fst (mem_of_lookupOpt_eq_some hh)

/- ### Generic fold invariance -/

theorem foldl_preserve {σ ρ : Type _} (P : σ → Prop) (step : σ → ρ → σ)
    (h : ∀ s r, P s → P (step s r)) :
    ∀ (l : List ρ) (s : σ), P s → P (l.foldl step s)
  | [], _, hs => hs
  | r :: rest, s, hs => foldl_preserve P step h rest (step s r) (h s r hs)

/- ### Sort relation facts and stability -/

theorem natDescLE_trans : ∀ a b c : String × Nat,
    natDescLE a b → natDescLE b c → natDescLE a c := by
  intro a b c hab hbc
  simp only [natDescLE, decide_eq_true_eq] at *
  omega

theorem natDescLE_total : ∀ a b : String × Nat, natDescLE a b || natDescLE b a := by
  intro a b
  simp only [natDescLE, Bool.or_eq_true, decide_eq_true_eq]
  omega

theorem mConsistLE_trans : ∀ a b c : MConsistEntry,
    mConsistLE a b → mConsistLE b c → mConsistLE a c := by
  intro a b c hab hbc
  simp only [mConsistLE, decide_eq_true_eq] at *
  exact le_trans hbc hab

theorem mConsistLE_total : ∀ a b : MConsistEntry, mConsistLE a b || mConsistLE b a := by
  intro a b
  simp only [mConsistLE, Bool.or_eq_true, decide_eq_true_eq]
  exact le_total b.consistency_rating a.consistency_rating

theorem wConsistLE_trans : ∀ a b c : WConsistEntry,
    wConsistLE a b → wConsistLE b c → wConsistLE a c := by
  intro a b c hab hbc
  simp only [wConsistLE, decide_eq_true_eq] at *
  rcases hab with h1 | ⟨h1, h1'⟩ <;> rcases hbc with h2 | ⟨h2, h2'⟩
  · exact Or.inl (lt_trans h2 h1)
  · exact Or.inl (h2 ▸ h1)
  · exact Or.inl (h1 ▸ h2)
  · exact Or.inr ⟨h2.trans h1, le_trans h2' h1'⟩

theorem wConsistLE_total : ∀ a b : WConsistEntry, wConsistLE a b || wConsistLE b a := by
  intro a b
  simp only [wConsistLE, Bool.or_eq_true, decide_eq_true_eq]
  rcases Nat.lt_trichotomy b.days_played a.days_played with h | h | h
  · exact Or.inl (Or.inl h)
  · rcases le_total b.average_score a.average_score with h' | h'
    · exact Or.inl (Or.inr ⟨h, h'⟩)
    · exact Or.inr (Or.inr ⟨h.symm, h'⟩)
  · exact Or.inr (Or.inl h)

/-- Stability of `mergeSort`: elements selected by a predicate on which the
sort relation is indifferent keep exactly their input order. -/
theorem mergeSort_filter_eq {α : Type _} {le : α → α → Bool}
    (htrans : ∀ a b c, le a b → le b c → le a c)
    (htotal : ∀ a b, le a b || le b a)
    (p : α → Bool) (hp : ∀ a b, p a → p b → le a b) (l : List α) :
    (l.mergeSort le).filter p = l.filter p := by
  have hpair : (l.filter p).Pairwise (le · ·) := by
    apply List.pairwise_of_forall_mem_list
    intro a ha b hb
    exact hp a b (List.of_mem_filter ha) (List.of_mem_filter hb)
  have hsub : List.Sublist (l.filter p) (l.mergeSort le) :=
    List.sublist_mergeSort htrans htotal hpair (List.filter_sublist l)
  have hsub2 : List.Sublist (l.filter p) ((l.mergeSort le).filter p) := by
    have h := hsub.filter p
    rwa [List.filter_filter, List.filter_congr] at h
    intro a ha
    simp
  have hperm : List.Perm ((l.mergeSort le).filter p) (l.filter p) :=
    (List.mergeSort_perm l le).filter p
  exact (hsub2.eq_of_length hperm.length_eq.symm).symm

/- ### Field characterizations of the aggregation steps -/

theorem mStep_participation (st : MAgg) (r : Row) :
    (mStep st r).participation_counts =
      updAssoc r.playfab_id (· + 1) 0 st.participation_counts := by
  simp only [mStep]; split_ifs <;> rfl

theorem mStep_total_scores (st : MAgg) (r : Row) :
    (mStep st r).total_scores =
      updAssoc r.playfab_id (· ++ [r.score]) [] st.total_scores := by
  simp only [mStep]; split_ifs <;> rfl

theorem mStep_first (st : MAgg) (r : Row) :
    (mStep st r).first_place_counts =
      if r.position = 0 then updAssoc r.playfab_id (· + 1) 0 st.first_place_counts
      else st.first_place_counts := by
  simp only [mStep]; split_ifs <;> rfl

theorem mStep_podium (st : MAgg) (r : Row) :
    (mStep st r).podium_counts =
      if r.position ≤ 2 then updAssoc r.playfab_id (· + 1) 0 st.podium_counts
      else st.podium_counts := by
  simp only [mStep]; split_ifs <;> rfl

theorem mStep_top10 (st : MAgg) (r : Row) :
    (mStep st r).top_10_counts =
      if r.position ≤ 9 then updAssoc r.playfab_id (· + 1) 0 st.top_10_counts
      else st.top_10_counts := by
  simp only [mStep]; split_ifs <;> rfl

theorem wStep_participation (st : WAgg) (r : Row) :
    (wStep st r).participation_counts =
      updAssoc r.playfab_id (· + 1) 0 st.participation_counts := by
  simp only [wStep]; split_ifs <;> rfl

theorem wStep_total_scores (st : WAgg) (r : Row) :
    (wStep st r).total_scores =
      updAssoc r.playfab_id (· ++ [r.score]) [] st.total_scores := by
  simp only [wStep]; split_ifs <;> rfl

theorem wStep_first (st : WAgg) (r : Row) :
    (wStep st r).first_place_counts =
      if r.position = 0 then updAssoc r.playfab_id (· + 1) 0 st.first_place_counts
      else st.first_place_counts := by
  simp only [wStep]; split_ifs <;> rfl

theorem wStep_podium (st : WAgg) (r : Row) :
    (wStep st r).podium_counts =
      if r.position ≤ 2 then updAssoc r.playfab_id (· + 1) 0 st.podium_counts
      else st.podium_counts := by
  simp only [wStep]; split_ifs <;> rfl

/- ### Aggregation invariants -/

/-- `participation_counts` and `total_scores` are built with the same keys
in the same insertion order, and dict keys are unique. -/
def MKeysOK (st : MAgg) : Prop :=
  keysOf st.total_scores = keysOf st.participation_counts ∧
  (keysOf st.participation_counts).Nodup

theorem mStep_keysOK (st : MAgg) (r : Row) (h : MKeysOK st) : MKeysOK (mStep st r) := by
  refine ⟨?_, ?_⟩
  · rw [mStep_total_scores, mStep_participation, keysOf_updAssoc, keysOf_updAssoc, h.1]
  · rw [mStep_participation]
    exact nodup_keysOf_updAssoc _ _ _ _ h.2

theorem mAgg_keysOK (rows : List Row) : MKeysOK (mAgg rows) :=
  foldl_preserve MKeysOK mStep (fun s r h => mStep_keysOK s r h) rows MAgg.init
    ⟨rfl, List.nodup_nil⟩

def WKeysOK (st : WAgg) : Prop :=
  keysOf st.total_scores = keysOf st.participation_counts ∧
  (keysOf st.participation_counts).Nodup

theorem wStep_keysOK (st : WAgg) (r : Row) (h : WKeysOK st) : WKeysOK (wStep st r) := by
  refine ⟨?_, ?_⟩
  · rw [wStep_total_scores, wStep_participation, keysOf_updAssoc, keysOf_updAssoc, h.1]
  · rw [wStep_participation]
    exact nodup_keysOf_updAssoc _ _ _ _ h.2

theorem wAgg_keysOK (rows : List Row) : WKeysOK (wAgg rows) :=
  foldl_preserve WKeysOK wStep (fun s r h => wStep_keysOK s r h) rows WAgg.init
    ⟨rfl, List.nodup_nil⟩

/-- The counter chain of the monthly aggregation: a record bumps a counter
only if it also bumps every weaker one. -/
def MCountMono (st : MAgg) : Prop :=
  ∀ pid : String,
    countD st.first_place_counts pid ≤ countD st.podium_counts pid ∧
    countD st.podium_counts pid ≤ countD st.top_10_counts pid ∧
    countD st.top_10_counts pid ≤ countD st.participation_counts pid

theorem mStep_countMono (st : MAgg) (r : Row) (h : MCountMono st) :
    MCountMono (mStep st r) := by
  intro pid
  obtain ⟨h1, h2, h3⟩ := h pid
  rw [mStep_first, mStep_podium, mStep_top10, mStep_participation]
  split_ifs with h0 hq ht <;>
    simp only [countD_updAssoc_one] <;>
    split_ifs <;>
    refine ⟨?_, ?_, ?_⟩ <;>
    omega

theorem mAgg_countMono (rows : List Row) : MCountMono (mAgg rows) :=
  foldl_preserve MCountMono mStep (fun s r h => mStep_countMono s r h) rows MAgg.init
    (fun _ => ⟨le_refl _, le_refl _, le_refl _⟩)

def WCountMono (st : WAgg) : Prop :=
  ∀ pid : String,
    countD st.first_place_counts pid ≤ countD st.podium_counts pid ∧
    countD st.podium_counts pid ≤ countD st.participation_counts pid

theorem wStep_countMono (st : WAgg) (r : Row) (h : WCountMono st) :
    WCountMono (wStep st r) := by
  intro pid
  obtain ⟨h1, h2⟩ := h pid
  rw [wStep_first, wStep_podium, wStep_participation]
  split_ifs with h0 hq <;>
    simp only [countD_updAssoc_one] <;>
    split_ifs <;>
    refine ⟨?_, ?_⟩ <;>
    omega

theorem wAgg_countMono (rows : List Row) : WCountMono (wAgg rows) :=
  foldl_preserve WCountMono wStep (fun s r h => wStep_countMono s r h) rows WAgg.init
    (fun _ => ⟨le_refl _, le_refl _⟩)

/- ### Claim theorems -/

/-- C10: for every input sequence and player, the aggregated counters
satisfy `first_place_count ≤ podium_count ≤ top_10_count ≤ days_played`
(monthly) and `first_place_count ≤ podium_count ≤ days_played` (weekly),
since a record increments a counter only if it increments every weaker
one. -/
theorem counter_chain_monotone (rows : List Row) (pid : String) :
    (countD (mAgg rows).first_place_counts pid ≤ countD (mAgg rows).podium_counts pid ∧
     countD (mAgg rows).podium_counts pid ≤ countD (mAgg rows).top_10_counts pid ∧
     countD (mAgg rows).top_10_counts pid ≤ countD (mAgg rows).participation_counts pid) ∧
    (countD (wAgg rows).first_place_counts pid ≤ countD (wAgg rows).podium_counts pid ∧
     countD (wAgg rows).podium_counts pid ≤ countD (wAgg rows).participation_counts pid) :=
  ⟨mAgg_countMono rows pid, wAgg_countMono rows pid⟩

/-- C3: the empty input sequence yields a report (not an error) with the
champion absent, every ranking list empty, `total_unique_players = 0` and
`avg_daily_participants = 0` (no division by zero: the monthly denominator
is `max 0 1 = 1`); likewise for the weekly report, which has no
average-participants field but an empty `daily_winners` map. -/
theorem empty_input_report (names : List (String × String)) (td : Nat) (s e : String) :
    (calculate_monthly_stats [] names td s e).monthly_champion = none ∧
    (calculate_monthly_stats [] names td s e).top_champions = [] ∧
    (calculate_monthly_stats [] names td s e).top_podium_finishes = [] ∧
    (calculate_monthly_stats [] names td s e).top_10_finishes = [] ∧
    (calculate_monthly_stats [] names td s e).most_consistent = [] ∧
    (calculate_monthly_stats [] names td s e).participation_stats.total_unique_players = 0 ∧
    (calculate_monthly_stats [] names td s e).participation_stats.avg_daily_participants = 0 ∧
    (calculate_weekly_stats [] names s e).weekly_champion = none ∧
    (calculate_weekly_stats [] names s e).top_first_places = [] ∧
    (calculate_weekly_stats [] names s e).top_podium_finishes = [] ∧
    (calculate_weekly_stats [] names s e).most_consistent = [] ∧
    (calculate_weekly_stats [] names s e).daily_winners = [] ∧
    (calculate_weekly_stats [] names s e).total_unique_players = 0 := by
  refine ⟨?_, ?_, ?_, ?_, ?_, ?_, ?_, ?_, ?_, ?_, ?_, ?_, ?_⟩ <;>
    simp [calculate_monthly_stats, calculate_weekly_stats, mAgg, wAgg, MAgg.init,
      WAgg.init, mConsistPool, wConsistPool, mScoreStats, List.mergeSort_nil]

/-- C1: the claim asserts ISO-8601 week windows, and the script's own
docstring says "Get start and end dates for a given ISO week", but
`strptime`'s `%W` numbering anchors week 1 to the first Monday of the
year.  At (2019, 1) the code returns 2019-01-07..2019-01-13 while the
ISO-8601 Monday of week (2019, 1) is 2018-12-31 (its week ends
2019-01-06). -/
theorem week_window_not_iso_at_2019_1 :
    get_week_date_range 2019 1 = Except.ok ("2019-01-07", "2019-01-13") ∧
    strftimeYmd (isoWeekMonday 2019 1) = "2018-12-31" ∧
    strftimeYmd (isoWeekMonday 2019 1 + 6) = "2019-01-06" := by
  refine ⟨?_, ?_, ?_⟩ <;> rfl

/-- C2 counterexample: week 0 lies outside 1..53, yet the resolver accepts
it without any error (the `%W` pattern matches 00) and returns the week-0
range, contradicting "fails with InvalidPeriod ... before any store
query". -/
theorem week_zero_accepted :
    get_week_date_range 2024 0 = Except.ok ("2024-01-01", "2024-01-07") := by
  rfl

/-- C2 (amended): the resolver, a pure function evaluated before any store
query is issued, fails for a month outside 1..12
(`calendar.IllegalMonthError`) and for a week outside 0..53 (`strptime`
`ValueError`); week 0, although outside 1..53, is accepted. -/
theorem invalid_period_rejected (year month week : Int) :
    ((month < 1 ∨ 12 < month) →
      get_month_date_range year month = Except.error "IllegalMonthError") ∧
    ((week < 0 ∨ 53 < week) →
      get_week_date_range year week =
        Except.error "ValueError: time data does not match format") := by
  constructor
  · intro hm
    have hcm : (month < 1 || 12 < month) = true := by
      simp only [Bool.or_eq_true, decide_eq_true_eq]
      rcases hm with h | h <;> omega
    have h : monthrange year month = Except.error "IllegalMonthError" := by
      simp only [monthrange, hcm, if_true]
    simp only [get_month_date_range, h]
  · intro hw
    have hcw : (year < 1000 || 9999 < year || week < 0 || 53 < week) = true := by
      simp only [Bool.or_eq_true, decide_eq_true_eq]
      rcases hw with h | h <;> omega
    simp only [get_week_date_range, hcw, if_true]

theorem invalid_period_rejected_witness :
    get_month_date_range 2024 13 = Except.error "IllegalMonthError" ∧
    get_week_date_range 2024 54 =
      Except.error "ValueError: time data does not match format" :=
  ⟨(invalid_period_rejected 2024 13 54).1 (Or.inr (by norm_num)),
   (invalid_period_rejected 2024 13 54).2 (Or.inr (by norm_num))⟩

/-- C9: for any year ≥ 1 and month in 1..12 the month window starts on day
01 and ends on the last calendar day of the month, following the Gregorian
month lengths and leap-year rule. -/
theorem month_window_bounds (year month : Int)
    (hy : 1 ≤ year) (h1 : 1 ≤ month) (h2 : month ≤ 12) :
    get_month_date_range year month =
      Except.ok (toString year ++ "-" ++ pad2 month ++ "-01",
                 toString year ++ "-" ++ pad2 month ++ "-"
                   ++ pad2 (lastDayOfMonthSpec year month)) := by
  have hcm : (month < 1 || 12 < month) = false := by
    simp only [Bool.or_eq_false_iff, decide_eq_false_iff_not]
    omega
  have h : monthrange year month = Except.ok (lastDayOfMonthSpec year month) := by
    simp only [monthrange, hcm, if_false, Bool.false_eq_true]
    interval_cases month <;>
      cases hly : isleap year <;>
      simp [mdays, lastDayOfMonthSpec, hly]
  simp only [get_month_date_range, h]

theorem month_window_bounds_witness :
    get_month_date_range 2024 2 = Except.ok ("2024-02-01", "2024-02-29") ∧
    get_month_date_range 2023 2 = Except.ok ("2023-02-01", "2023-02-28") := by
  have h24 := month_window_bounds 2024 2 (by norm_num) (by norm_num) (by norm_num)
  have h23 := month_window_bounds 2023 2 (by norm_num) (by norm_num) (by norm_num)
  rw [h24, h23]
  refine ⟨?_, ?_⟩ <;> rfl

/-- C6: in the monthly report, `total_days_tracked` is the day-count query
result, and every champion entry and top-champion entry has
`win_percentage = first_place_count / total_days_tracked * 100`, with 0
when `total_days_tracked = 0`. -/
theorem monthly_win_percentage (rows : List Row) (names : List (String × String))
    (td : Nat) (s e : String) :
    (calculate_monthly_stats rows names td s e).participation_stats.total_days_tracked
        = td ∧
    (∀ c, (calculate_monthly_stats rows names td s e).monthly_champion = some c →
      c.win_percentage =
        if td = 0 then 0 else (c.first_place_count : Rat) / (td : Rat) * 100) ∧
    (∀ c ∈ (calculate_monthly_stats rows names td s e).top_champions,
      c.win_percentage =
        if td = 0 then 0 else (c.first_place_count : Rat) / (td : Rat) * 100) := by
  refine ⟨rfl, ?_, ?_⟩
  · intro c hc
    simp only [calculate_monthly_stats, Option.map_eq_some'] at hc
    obtain ⟨p, _, hmk⟩ := hc
    subst hmk
    simp only [mkChampEntry]
    rcases Nat.eq_zero_or_pos td with h | h
    · simp [h]
    · simp [h, Nat.pos_iff_ne_zero.mp h]
  · intro c hc
    simp only [calculate_monthly_stats, List.mem_map] at hc
    obtain ⟨p, _, hmk⟩ := hc
    subst hmk
    simp only [mkChampEntry]
    rcases Nat.eq_zero_or_pos td with h | h
    · simp [h]
    · simp [h, Nat.pos_iff_ne_zero.mp h]

unseal List.merge List.mergeSort in
theorem monthly_win_percentage_witness :
    (calculate_monthly_stats exampleRows [] 5 "s" "e").monthly_champion =
      some (mkChampEntry [] 5 ("A", 5)) ∧
    (mkChampEntry [] 5 ("A", 5)).win_percentage =
      if (5 : Nat) = 0 then 0
      else ((mkChampEntry [] 5 ("A", 5)).first_place_count : Rat) / ((5 : Nat) : Rat) * 100 := by
  have hc : (calculate_monthly_stats exampleRows [] 5 "s" "e").monthly_champion =
      some (mkChampEntry [] 5 ("A", 5)) := by rfl
  exact ⟨hc, (monthly_win_percentage exampleRows [] 5 "s" "e").2.1 _ hc⟩

/- ### Consistency pool characterization -/

theorem mConsistPool_entry (names : List (String × String)) (rows : List Row) :
    ∀ c ∈ mConsistPool names (mAgg rows),
      5 ≤ c.days_played ∧
      c.days_played = countD (mAgg rows).participation_counts c.playfab_id ∧
      ∃ scores_list,
        lookupOpt (mAgg rows).total_scores c.playfab_id = some scores_list ∧
        c.average_score = pyInt (meanQ scores_list) ∧
        c.consistency_rating = (c.days_played : Rat) * meanQ scores_list := by
  intro c hc
  obtain ⟨hkeys, hnd⟩ := mAgg_keysOK rows
  simp only [mConsistPool, List.mem_filterMap] at hc
  obtain ⟨p, hp, heq⟩ := hc
  by_cases h5 : 5 ≤ p.2
  · rw [if_pos h5] at heq
    rcases hlk : lookupOpt (mAgg rows).total_scores p.1 with _ | sl
    · rw [hlk] at heq; cases heq
    · rw [hlk] at heq
      have hcc := Option.some.inj heq
      subst hcc
      refine ⟨h5, ?_, sl, hlk, rfl, rfl⟩
      rw [countD, lookupOpt_eq_some_of_mem hnd hp]
      rfl
  · rw [if_neg h5] at heq; cases heq

theorem mConsistPool_complete (names : List (String × String)) (rows : List Row)
    (pid : String) (h5 : 5 ≤ countD (mAgg rows).participation_counts pid) :
    ∃ c ∈ mConsistPool names (mAgg rows), c.playfab_id = pid := by
  obtain ⟨hkeys, hnd⟩ := mAgg_keysOK rows
  rcases hlk : lookupOpt (mAgg rows).participation_counts pid with _ | days
  · rw [countD, hlk] at h5; simp at h5
  · have hdays : 5 ≤ days := by rw [countD, hlk] at h5; simpa using h5
    have hmem : (pid, days) ∈ (mAgg rows).participation_counts :=
      mem_of_lookupOpt_eq_some hlk
    have hpid_keys : pid ∈ keysOf (mAgg rows).total_scores := by
      rw [hkeys]
      exact List.mem_map_of_mem Prod.fst hmem
    rcases hsl : lookupOpt (mAgg rows).total_scores pid with _ | sl
    · rw [lookupOpt_eq_none_iff] at hsl
      exact absurd hpid_keys hsl
    · refine ⟨⟨pid, nameOf names pid, days, pyInt (meanQ sl), listMax sl, listMin sl,
        (days : Rat) * meanQ sl⟩, ?_, rfl⟩
      simp only [mConsistPool, List.mem_filterMap]
      refine ⟨(pid, days), hmem, ?_⟩
      rw [if_pos hdays, hsl]

theorem wConsistPool_entry (names : List (String × String)) (rows : List Row) :
    ∀ c ∈ wConsistPool names (wAgg rows),
      3 ≤ c.days_played ∧
      c.days_played = countD (wAgg rows).participation_counts c.playfab_id ∧
      ∃ scores_list,
        lookupOpt (wAgg rows).total_scores c.playfab_id = some scores_list ∧
        c.average_score = pyInt (meanQ scores_list) := by
  intro c hc
  obtain ⟨hkeys, hnd⟩ := wAgg_keysOK rows
  simp only [wConsistPool, List.mem_filterMap] at hc
  obtain ⟨p, hp, heq⟩ := hc
  by_cases h3 : 3 ≤ p.2
  · rw [if_pos h3] at heq
    rcases hlk : lookupOpt (wAgg rows).total_scores p.1 with _ | sl
    · rw [hlk] at heq; cases heq
    · rw [hlk] at heq
      have hcc := Option.some.inj heq
      subst hcc
      refine ⟨h3, ?_, sl, hlk, rfl⟩
      rw [countD, lookupOpt_eq_some_of_mem hnd hp]
      rfl
  · rw [if_neg h3] at heq; cases heq

theorem wConsistPool_complete (names : List (String × String)) (rows : List Row)
    (pid : String) (h3 : 3 ≤ countD (wAgg rows).participation_counts pid) :
    ∃ c ∈ wConsistPool names (wAgg rows), c.playfab_id = pid := by
  obtain ⟨hkeys, hnd⟩ := wAgg_keysOK rows
  rcases hlk : lookupOpt (wAgg rows).participation_counts pid with _ | days
  · rw [countD, hlk] at h3; simp at h3
  · have hdays : 3 ≤ days := by rw [countD, hlk] at h3; simpa using h3
    have hmem : (pid, days) ∈ (wAgg rows).participation_counts :=
      mem_of_lookupOpt_eq_some hlk
    have hpid_keys : pid ∈ keysOf (wAgg rows).total_scores := by
      rw [hkeys]
      exact List.mem_map_of_mem Prod.fst hmem
    rcases hsl : lookupOpt (wAgg rows).total_scores pid with _ | sl
    · rw [lookupOpt_eq_none_iff] at hsl
      exact absurd hpid_keys hsl
    · refine ⟨⟨pid, nameOf names pid, days, pyInt (meanQ sl)⟩, ?_, rfl⟩
      simp only [wConsistPool, List.mem_filterMap]
      refine ⟨(pid, days), hmem, ?_⟩
      rw [if_pos hdays, hsl]

unseal List.merge List.mergeSort in
/-- C7 counterexample: on `exampleRows`, player A's mean is 457/5 = 91.4;
the monthly report's consistency entry stores `average_score = 91`, the
truncation, not the 2-decimal rounding `round2 (457/5) = 91.4`, so the
claim "rounded to 2 decimal places for the average_score summary field" is
false on the monthly report at this input. -/
theorem monthly_average_not_rounded :
    ((calculate_monthly_stats exampleRows [] 5 "s" "e").most_consistent.map
        fun c => (c.playfab_id, (c.average_score : Rat))) =
      [("A", (pyInt (meanQ [90, 90, 90, 92, 95]) : Rat))] ∧
    meanQ [90, 90, 90, 92, 95] = (457 : Rat) / 5 ∧
    (pyInt ((457 : Rat) / 5) : Rat) = 91 ∧
    round2 ((457 : Rat) / 5) = (457 : Rat) / 5 ∧
    ((91 : Rat) ≠ (457 : Rat) / 5) := by
  have hmean : meanQ [90, 90, 90, 92, 95] = (457 : Rat) / 5 := by
    norm_num [meanQ]
  have htdiv : Int.tdiv 457 5 = 91 := by decide
  refine ⟨rfl, hmean, ?_, ?_, by norm_num⟩
  · simp only [pyInt]
    norm_num [htdiv]
  · have h100 : (457 : Rat) / 5 * 100 = 9140 := by norm_num
    have hfloor : Rat.floor (9140 : Rat) = 9140 := by
      norm_num [Rat.floor_def']
    simp only [round2, roundHalfEven, h100, hfloor]
    norm_num

/-- C7 (amended): in the monthly report each eligible player's mean score
is truncated toward zero into the consistency entry's `average_score`
field, while the exact (untruncated) mean enters `consistency_rating` as
`days_played × mean`; the 2-decimal rounding appears only in the
player-summary export path, not in the monthly report. -/
theorem monthly_average_truncated (rows : List Row) (names : List (String × String))
    (td : Nat) (s e : String) :
    ∀ c ∈ (calculate_monthly_stats rows names td s e).most_consistent,
      ∃ scores_list,
        lookupOpt (mAgg rows).total_scores c.playfab_id = some scores_list ∧
        c.average_score = pyInt (meanQ scores_list) ∧
        c.consistency_rating = (c.days_played : Rat) * meanQ scores_list := by
  intro c hc
  have hc' : c ∈ ((mConsistPool names (mAgg rows)).mergeSort mConsistLE).take 15 := hc
  have hpool : c ∈ mConsistPool names (mAgg rows) :=
    List.mem_mergeSort.1 (List.mem_of_mem_take hc')
  obtain ⟨_, _, sl, hsl, h1, h2⟩ := mConsistPool_entry names rows c hpool
  exact ⟨sl, hsl, h1, h2⟩

unseal List.merge List.mergeSort in
theorem monthly_average_truncated_witness :
    examplePoolEntry ∈ (calculate_monthly_stats exampleRows [] 5 "s" "e").most_consistent ∧
    ∃ scores_list,
      lookupOpt (mAgg exampleRows).total_scores examplePoolEntry.playfab_id
          = some scores_list ∧
      examplePoolEntry.average_score = pyInt (meanQ scores_list) ∧
      examplePoolEntry.consistency_rating =
        (examplePoolEntry.days_played : Rat) * meanQ scores_list := by
  have hm : examplePoolEntry ∈
      (calculate_monthly_stats exampleRows [] 5 "s" "e").most_consistent :=
    List.mem_cons_self _ _
  exact ⟨hm, monthly_average_truncated exampleRows [] 5 "s" "e" examplePoolEntry hm⟩

/-- C4: the consistency ranking is built from exactly the players with
`days_played ≥ 5` (monthly) / `≥ 3` (weekly); the monthly list is ordered
descending by `consistency_rating = days_played × mean score` and truncated
to 15, the weekly list descending lexicographically by
`(days_played, average_score)` (the entry's integer average field, the
code's sort key) and truncated to 10. -/
theorem consistency_ranking (rows : List Row) (names : List (String × String))
    (td : Nat) (s e : String) :
    ((calculate_monthly_stats rows names td s e).most_consistent =
        (mConsistSorted names rows).take 15 ∧
      List.Perm (mConsistSorted names rows) (mConsistPool names (mAgg rows)) ∧
      (mConsistSorted names rows).Pairwise
        (fun a b => b.consistency_rating ≤ a.consistency_rating) ∧
      (∀ pid : String, (∃ c ∈ mConsistSorted names rows, c.playfab_id = pid) ↔
        5 ≤ countD (mAgg rows).participation_counts pid) ∧
      (∀ c ∈ mConsistSorted names rows,
        c.days_played = countD (mAgg rows).participation_counts c.playfab_id ∧
        c.consistency_rating =
          (c.days_played : Rat) *
            meanQ ((lookupOpt (mAgg rows).total_scores c.playfab_id).getD []))) ∧
    ((calculate_weekly_stats rows names s e).most_consistent =
        (wConsistSorted names rows).take 10 ∧
      List.Perm (wConsistSorted names rows) (wConsistPool names (wAgg rows)) ∧
      (wConsistSorted names rows).Pairwise
        (fun a b => b.days_played < a.days_played ∨
          (b.days_played = a.days_played ∧ b.average_score ≤ a.average_score)) ∧
      (∀ pid : String, (∃ c ∈ wConsistSorted names rows, c.playfab_id = pid) ↔
        3 ≤ countD (wAgg rows).participation_counts pid) ∧
      (∀ c ∈ wConsistSorted names rows,
        c.days_played = countD (wAgg rows).participation_counts c.playfab_id)) := by
  constructor
  · refine ⟨rfl, List.mergeSort_perm _ _, ?_, ?_, ?_⟩
    · exact (List.sorted_mergeSort mConsistLE_trans mConsistLE_total _).imp
        (fun h => by simpa [mConsistLE] using h)
    · intro pid
      constructor
      · rintro ⟨c, hc, rfl⟩
        have hpool : c ∈ mConsistPool names (mAgg rows) := List.mem_mergeSort.1 hc
        obtain ⟨h5, hdays, _⟩ := mConsistPool_entry names rows c hpool
        omega
      · intro h5
        obtain ⟨c, hc, hpid⟩ := mConsistPool_complete names rows pid h5
        exact ⟨c, List.mem_mergeSort.2 hc, hpid⟩
    · intro c hc
      have hpool : c ∈ mConsistPool names (mAgg rows) := List.mem_mergeSort.1 hc
      obtain ⟨_, hdays, sl, hsl, _, hrate⟩ := mConsistPool_entry names rows c hpool
      rw [hsl]
      exact ⟨hdays, hrate⟩
  · refine ⟨rfl, List.mergeSort_perm _ _, ?_, ?_, ?_⟩
    · exact (List.sorted_mergeSort wConsistLE_trans wConsistLE_total _).imp
        (fun h => by simpa [wConsistLE] using h)
    · intro pid
      constructor
      · rintro ⟨c, hc, rfl⟩
        have hpool : c ∈ wConsistPool names (wAgg rows) := List.mem_mergeSort.1 hc
        obtain ⟨h3, hdays, _⟩ := wConsistPool_entry names rows c hpool
        omega
      · intro h3
        obtain ⟨c, hc, hpid⟩ := wConsistPool_complete names rows pid h3
        exact ⟨c, List.mem_mergeSort.2 hc, hpid⟩
    · intro c hc
      have hpool : c ∈ wConsistPool names (wAgg rows) := List.mem_mergeSort.1 hc
      obtain ⟨_, hdays, _⟩ := wConsistPool_entry names rows c hpool
      exact hdays

unseal List.merge List.mergeSort in
theorem consistency_ranking_witness :
    (∃ c ∈ mConsistSorted [] exampleRows, c.playfab_id = "A") ∧
    examplePoolEntry.days_played =
      countD (mAgg exampleRows).participation_counts examplePoolEntry.playfab_id := by
  constructor
  · exact ((consistency_ranking exampleRows [] 5 "s" "e").1.2.2.2.1 "A").2 (by decide)
  · have hm : examplePoolEntry ∈ mConsistSorted [] exampleRows :=
      List.mem_cons_self _ _
    exact ((consistency_ranking exampleRows [] 5 "s" "e").1.2.2.2.2
      examplePoolEntry hm).1

/- ### Stable descending sort by count -/

theorem stableDescNat_spec (l : List (String × Nat)) :
    List.Perm (l.mergeSort natDescLE) l ∧
    (l.mergeSort natDescLE).Pairwise (fun a b => b.2 ≤ a.2) ∧
    ∀ n : Nat, (l.mergeSort natDescLE).filter (fun x => x.2 == n) =
      l.filter (fun x => x.2 == n) := by
  refine ⟨List.mergeSort_perm l natDescLE, ?_, ?_⟩
  · exact (List.sorted_mergeSort natDescLE_trans natDescLE_total l).imp
      (fun h => by simpa [natDescLE] using h)
  · intro n
    apply mergeSort_filter_eq natDescLE_trans natDescLE_total
    intro a b ha hb
    simp only [beq_iff_eq] at ha hb
    simp [natDescLE, ha, hb]

/-- C5: each top-N ranking list is the counter dictionary's items sorted
descending by the counter with a stable sort — entries with equal counts
keep their insertion order, expressed by the filter equations — truncated
to N = 10 for champions and podium (weekly and monthly) and N = 20 for the
monthly top-10-finisher list, then rendered into display entries. -/
theorem top_rankings (rows : List Row) (names : List (String × String))
    (td : Nat) (s e : String) :
    ((calculate_monthly_stats rows names td s e).top_champions =
        ((mFirstSorted rows).take 10).map (mkChampEntry names td) ∧
      List.Perm (mFirstSorted rows) (mAgg rows).first_place_counts ∧
      (mFirstSorted rows).Pairwise (fun a b => b.2 ≤ a.2) ∧
      ∀ n : Nat, (mFirstSorted rows).filter (fun x => x.2 == n) =
        (mAgg rows).first_place_counts.filter (fun x => x.2 == n)) ∧
    ((calculate_monthly_stats rows names td s e).top_podium_finishes =
        ((mPodiumSorted rows).take 10).map (mkPodiumEntry names td) ∧
      List.Perm (mPodiumSorted rows) (mAgg rows).podium_counts ∧
      (mPodiumSorted rows).Pairwise (fun a b => b.2 ≤ a.2) ∧
      ∀ n : Nat, (mPodiumSorted rows).filter (fun x => x.2 == n) =
        (mAgg rows).podium_counts.filter (fun x => x.2 == n)) ∧
    ((calculate_monthly_stats rows names td s e).top_10_finishes =
        ((mTop10Sorted rows).take 20).map (mkTop10Entry names) ∧
      List.Perm (mTop10Sorted rows) (mAgg rows).top_10_counts ∧
      (mTop10Sorted rows).Pairwise (fun a b => b.2 ≤ a.2) ∧
      ∀ n : Nat, (mTop10Sorted rows).filter (fun x => x.2 == n) =
        (mAgg rows).top_10_counts.filter (fun x => x.2 == n)) ∧
    ((calculate_weekly_stats rows names s e).top_first_places =
        ((wFirstSorted rows).take 10).map (mkWCountEntry names) ∧
      List.Perm (wFirstSorted rows) (wAgg rows).first_place_counts ∧
      (wFirstSorted rows).Pairwise (fun a b => b.2 ≤ a.2) ∧
      ∀ n : Nat, (wFirstSorted rows).filter (fun x => x.2 == n) =
        (wAgg rows).first_place_counts.filter (fun x => x.2 == n)) ∧
    ((calculate_weekly_stats rows names s e).top_podium_finishes =
        ((wPodiumSorted rows).take 10).map (mkWCountEntry names) ∧
      List.Perm (wPodiumSorted rows) (wAgg rows).podium_counts ∧
      (wPodiumSorted rows).Pairwise (fun a b => b.2 ≤ a.2) ∧
      ∀ n : Nat, (wPodiumSorted rows).filter (fun x => x.2 == n) =
        (wAgg rows).podium_counts.filter (fun x => x.2 == n)) := by
  refine ⟨⟨rfl, ?_⟩, ⟨rfl, ?_⟩, ⟨rfl, ?_⟩, ⟨rfl, ?_⟩, ⟨rfl, ?_⟩⟩ <;>
    exact ⟨(stableDescNat_spec _).1, (stableDescNat_spec _).2.1,
      (stableDescNat_spec _).2.2⟩

/-- C8: CSV export of zero records writes no file and only reports that
there is nothing to export; JSON export of the empty sequence is not an
error and writes exactly the two characters `[]`; a non-empty sequence is
written as a header line built from the first record's keys followed by
one line per record. -/
theorem export_empty_and_nonempty (records : List (List (String × String)))
    (r0 : List (String × String)) (rs : List (List (String × String)))
    (h : records = r0 :: rs)
    (hkeys : records.all (fun r => r.all fun kv => (r0.map Prod.fst).contains kv.1)) :
    write_csv [] = CsvResult.emptyMsg ∧
    write_json [] = "[]" ∧
    ("[]" : String).length = 2 ∧
    write_csv records =
      CsvResult.written
        (csvLine (r0.map Prod.fst) ::
          records.map fun r =>
            csvLine ((r0.map Prod.fst).map fun k => (lookupOpt r k).getD "")) ∧
    (csvLine (r0.map Prod.fst) ::
        records.map fun r =>
          csvLine ((r0.map Prod.fst).map fun k => (lookupOpt r k).getD "")).length
      = records.length + 1 := by
  subst h
  refine ⟨rfl, rfl, rfl, ?_, by simp⟩
  simp only [write_csv, hkeys, if_true]

theorem export_empty_and_nonempty_witness :
    write_csv [] = CsvResult.emptyMsg ∧
    write_json [] = "[]" ∧
    ("[]" : String).length = 2 ∧
    write_csv exampleCsvRecords =
      CsvResult.written
        (csvLine (["a", "b"]) ::
          exampleCsvRecords.map fun r =>
            csvLine ((["a", "b"]).map fun k => (lookupOpt r k).getD "")) ∧
    (csvLine (["a", "b"]) ::
        exampleCsvRecords.map fun r =>
          csvLine ((["a", "b"]).map fun k => (lookupOpt r k).getD "")).length
      = exampleCsvRecords.length + 1 := by
  have h := export_empty_and_nonempty exampleCsvRecords [("a", "1"), ("b", "2")]
    [[("a", "3"), ("b", "4")]] rfl (by decide)
  exact h
